import Mathlib

/-!
Verification of the PySpark Python-client serialization and streaming-RPC core.

This file shallowly embeds, in Lean 4, the algorithmic core of the repository:

* the framed byte-stream codec (`FramedSerializer._write_with_length` /
  `_read_with_length`, `write_int` / `read_int` in `python/pyspark/serializers.py`),
* the batching layer (`BatchedSerializer`, `AutoBatchedSerializer`),
* the pair / cartesian composite deserializers,
* the Arrow/Spark type bridge (`to_arrow_type` / `from_arrow_type` in
  `python/pyspark/sql/pandas/types.py`),
* the reattachable execute-stream client
  (`ExecutePlanResponseReattachableIterator` in
  `python/pyspark/sql/connect/client/reattach.py`).

Byte streams are modelled as `List Nat` (each element a byte value), Python
exceptions as an explicit error type threaded through `Except`, and iterators
as lists consumed from the front.
-/

namespace PySparkSer

/-- The Python exception kinds that the modelled code paths can raise.
`valueError` carries the message of the Python `ValueError`; `structError`
models `struct.error` from `struct.pack`/`struct.unpack` (which is *not* a
`ValueError` in Python); `eofError` models `EOFError`; `typeError` models the
`TypeError` raised when iterating a non-iterable value. -/
inductive PyErr where
  | valueError (msg : String)
  | structError
  | eofError
  | typeError
  deriving DecidableEq, Repr

/-- Whether an error is a Python `ValueError` (of any message). -/
def PyErr.isValueErr : PyErr → Bool
  | .valueError _ => true
  | _ => false

/-- `SpecialLengths.END_OF_DATA_SECTION` from `serializers.py`. -/
def END_OF_DATA_SECTION : Int := -1

/-- `SpecialLengths.NULL` from `serializers.py`. -/
def NULL : Int := -5

/-- The 4 bytes produced by `struct.pack("!i", value)`: big-endian
two's-complement encoding of a 32-bit signed integer. -/
def intToBytes4 (value : Int) : List Nat :=
  [(value % 4294967296).toNat / 16777216 % 256,
   (value % 4294967296).toNat / 65536 % 256,
   (value % 4294967296).toNat / 256 % 256,
   (value % 4294967296).toNat % 256]

/-- The signed 32-bit integer read back by `struct.unpack("!i", bs)` from
4 big-endian bytes. -/
def bytesToInt4 (bs : List Nat) : Int :=
  if 2147483648 ≤ List.foldl (fun acc b => acc * 256 + b) 0 bs then
    Int.ofNat (List.foldl (fun acc b => acc * 256 + b) 0 bs) - 4294967296
  else Int.ofNat (List.foldl (fun acc b => acc * 256 + b) 0 bs)

/-- `write_int(value, stream)`: `stream.write(struct.pack("!i", value))`.
`struct.pack("!i", v)` raises `struct.error` when `v` is outside the signed
32-bit range. Returns the extended stream. -/
def writeInt (value : Int) (stream : List Nat) : Except PyErr (List Nat) :=
  if value < -2147483648 ∨ 2147483648 ≤ value then .error .structError
  else .ok (stream ++ intToBytes4 value)

/-- `read_int(stream)`: reads 4 bytes; raises `EOFError` when zero bytes are
available (`if not length`), `struct.error` when fewer than 4 bytes remain
(short buffer for `struct.unpack`), else unpacks a signed 32-bit big-endian
integer.  Returns the value and the rest of the stream. -/
def readInt (stream : List Nat) : Except PyErr (Int × List Nat) :=
  if (stream.take 4).isEmpty then .error .eofError
  else if (stream.take 4).length < 4 then .error .structError
  else .ok (bytesToInt4 (stream.take 4), stream.drop 4)

/-- Python `stream.read(length)` on our list model: a negative argument reads
everything remaining, otherwise up to `length` bytes are taken. -/
def pyRead (length : Int) (stream : List Nat) : List Nat :=
  if length < 0 then stream else stream.take length.toNat

/-- `FramedSerializer._write_with_length(obj, stream)` with the `self.dumps(obj)`
call factored out: `serialized` is the value returned by `dumps` (where `none`
models Python `None`).  Raises `ValueError` when `serialized` is `None` or its
length exceeds `1 << 31`; otherwise writes the 4-byte length then the payload. -/
def writeWithLength (serialized : Option (List Nat)) (stream : List Nat) :
    Except PyErr (List Nat) :=
  match serialized with
  | none => .error (.valueError "serialized value should not be None")
  | some s =>
    if s.length > 2147483648 then
      .error (.valueError "can not serialize object larger than 2G")
    else
      match writeInt (s.length : Int) stream with
      | .error e => .error e
      | .ok stream1 => .ok (stream1 ++ s)

/-- `FramedSerializer._read_with_length(stream)`: reads the 4-byte length;
`END_OF_DATA_SECTION` raises `EOFError`, `NULL` returns Python `None` (here
`none`), otherwise reads `length` bytes, raising `EOFError` when fewer are
available, and applies `loads`.  Returns the (optional) value and the rest of
the stream. -/
def readWithLength (loads : List Nat → β) (stream : List Nat) :
    Except PyErr (Option β × List Nat) :=
  match readInt stream with
  | .error e => .error e
  | .ok (length, rest) =>
    if length = END_OF_DATA_SECTION then .error .eofError
    else if length = NULL then .ok (none, rest)
    else
      if ((pyRead length rest).length : Int) < length then .error .eofError
      else .ok (some (loads (pyRead length rest)), rest.drop (pyRead length rest).length)

theorem intToBytes4_length (value : Int) : (intToBytes4 value).length = 4 := rfl

theorem foldl4 (m : Nat) :
    List.foldl (fun acc b => acc * 256 + b) 0
      [m / 16777216 % 256, m / 65536 % 256, m / 256 % 256, m % 256] =
      m % 4294967296 := by
  simp only [List.foldl]
  omega

theorem bytesToInt4_intToBytes4 (n : Nat) (h : n < 2147483648) :
    bytesToInt4 (intToBytes4 (n : Int)) = (n : Int) := by
  have hm : (((n : Int) % 4294967296)).toNat = n := by omega
  rw [intToBytes4, hm]
  simp only [bytesToInt4, foldl4]
  have hmod : n % 4294967296 = n := by omega
  rw [hmod, if_neg (by omega : ¬ 2147483648 ≤ n)]
  rfl

theorem writeWithLength_ok (b : List Nat) (h : b.length < 2147483648)
    (stream : List Nat) :
    writeWithLength (some b) stream =
      .ok (stream ++ intToBytes4 (b.length : Int) ++ b) := by
  rw [writeWithLength]
  rw [if_neg (by omega : ¬ b.length > 2147483648)]
  rw [writeInt,
    if_neg (by omega :
      ¬ ((b.length : Int) < -2147483648 ∨ 2147483648 ≤ (b.length : Int)))]

theorem readInt_cons (b0 b1 b2 b3 : Nat) (t : List Nat) :
    readInt (b0 :: b1 :: b2 :: b3 :: t) = .ok (bytesToInt4 [b0, b1, b2, b3], t) :=
  rfl

theorem readWithLength_frame (loads : List Nat → β) (b : List Nat)
    (h : b.length < 2147483648) (rest : List Nat) :
    readWithLength loads (intToBytes4 (b.length : Int) ++ b ++ rest) =
      .ok (some (loads b), rest) := by
  obtain ⟨x0, x1, x2, x3, hb⟩ : ∃ x0 x1 x2 x3,
      intToBytes4 ((b.length : Nat) : Int) = [x0, x1, x2, x3] := ⟨_, _, _, _, rfl⟩
  have hstream : intToBytes4 (b.length : Int) ++ b ++ rest =
      x0 :: x1 :: x2 :: x3 :: (b ++ rest) := by
    rw [hb]; simp
  rw [readWithLength, hstream, readInt_cons, ← hb,
    bytesToInt4_intToBytes4 _ h]
  have hEOD : ¬ ((b.length : Int) = END_OF_DATA_SECTION) := by
    rw [END_OF_DATA_SECTION]; omega
  have hNULL : ¬ ((b.length : Int) = NULL) := by
    rw [NULL]; omega
  have hpr : pyRead (b.length : Int) (b ++ rest) = b := by
    rw [pyRead, if_neg (by omega : ¬ ((b.length : Int) < 0))]
    have : ((b.length : Int)).toNat = b.length := by omega
    rw [this, List.take_left]
  have hlt : ¬ (((b.length : Nat) : Int) < (b.length : Int)) := by omega
  simp [hEOD, hNULL, hpr, hlt, List.drop_left]

/-- C3: writing a byte string `b` with `0 ≤ len(b) ≤ 2^31 - 1` as one frame and
reading one frame back (with identity `dumps`/`loads`) returns exactly `b`,
consuming the whole produced stream. -/
theorem frame_roundtrip (b : List Nat) (h : b.length ≤ 2147483647) :
    (writeWithLength (some b) []).bind (readWithLength (fun o => o)) =
      .ok (some b, []) := by
  rw [writeWithLength_ok b (by omega) [], List.nil_append, Except.bind]
  have := readWithLength_frame (fun o : List Nat => o) b (by omega) []
  rw [List.append_nil] at this
  exact this

/-- C3 witness: round trip at the empty byte string and at `[7, 8, 9]`. -/
theorem frame_roundtrip_witness :
    (([] : List Nat).length ≤ 2147483647 ∧
      (writeWithLength (some []) []).bind (readWithLength (fun o => o)) =
        .ok (some [], [])) ∧
    (([7, 8, 9] : List Nat).length ≤ 2147483647 ∧
      (writeWithLength (some [7, 8, 9]) []).bind (readWithLength (fun o => o)) =
        .ok (some [7, 8, 9], [])) :=
  ⟨⟨by decide, frame_roundtrip [] (by decide)⟩,
   ⟨by decide, frame_roundtrip [7, 8, 9] (by decide)⟩⟩

/-- C4 counterexample: for a payload of length exactly `2^31` the
`len(serialized) > (1 << 31)` guard in `_write_with_length` does **not** fire
(the comparison is strict), so no `ValueError` is raised; instead the
`struct.pack("!i", 2^31)` call inside `write_int` fails with `struct.error`,
which is not a `ValueError`. -/
theorem write_oversize_at_exact_bound :
    writeWithLength (some (List.replicate 2147483648 0)) [] =
      .error .structError ∧ PyErr.structError.isValueErr = false := by
  constructor
  · rw [writeWithLength]
    have hlen : (List.replicate 2147483648 (0 : Nat)).length = 2147483648 :=
      List.length_replicate _ _
    rw [if_neg (by rw [hlen]; omega : ¬ (List.replicate 2147483648 (0 : Nat)).length > 2147483648)]
    rw [writeInt, if_pos (by rw [hlen]; omega :
      ((List.replicate 2147483648 (0 : Nat)).length : Int) < -2147483648 ∨
        2147483648 ≤ ((List.replicate 2147483648 (0 : Nat)).length : Int))]
  · rfl

/-- C4 (amended): `_write_with_length` raises a `ValueError` for every payload
whose serialized length is **strictly greater than** `2^31` bytes, and raises a
`ValueError` when the serialized payload is `None`; at exactly `2^31` bytes the
failure is a `struct.error` from `write_int` instead. -/
theorem write_oversize_rejection (b : List Nat) (stream : List Nat)
    (h : b.length > 2147483648) :
    writeWithLength (some b) stream =
        .error (.valueError "can not serialize object larger than 2G") ∧
      writeWithLength none stream =
        .error (.valueError "serialized value should not be None") := by
  constructor
  · rw [writeWithLength, if_pos h]
  · rw [writeWithLength]

/-- C4 witness: the amended claim at a payload of `2^31 + 1` zero bytes. -/
theorem write_oversize_rejection_witness :
    (List.replicate 2147483649 (0 : Nat)).length > 2147483648 ∧
      writeWithLength (some (List.replicate 2147483649 0)) [] =
        .error (.valueError "can not serialize object larger than 2G") :=
  ⟨by rw [List.length_replicate]; omega, (write_oversize_rejection _ []
    (by rw [List.length_replicate]; omega)).1⟩

theorem readInt_ok (stream : List Nat) (len : Int) (r0 : List Nat)
    (h : readInt stream = .ok (len, r0)) :
    4 ≤ stream.length ∧ r0 = stream.drop 4 := by
  rw [readInt] at h
  split at h
  · exact absurd h (by simp)
  · split at h
    · exact absurd h (by simp)
    · rename_i h1 h2
      rw [List.length_take] at h2
      refine ⟨by omega, ?_⟩
      cases h
      rfl

theorem readWithLength_shrinks (loads : List Nat → β) (stream : List Nat)
    (v : Option β) (rest : List Nat)
    (h : readWithLength loads stream = .ok (v, rest)) :
    rest.length < stream.length := by
  rw [readWithLength] at h
  cases hri : readInt stream with
  | error e => rw [hri] at h; exact absurd h (by simp)
  | ok p =>
    obtain ⟨len, r0⟩ := p
    obtain ⟨h4, hr0⟩ := readInt_ok stream len r0 hri
    rw [hri] at h
    simp only at h
    split at h
    · exact absurd h (by simp)
    · split at h
      · have : rest = r0 := by cases h; rfl
        subst this
        rw [hr0, List.length_drop]
        omega
      · split at h
        · exact absurd h (by simp)
        · have : rest = r0.drop (pyRead len r0).length := by cases h; rfl
          subst this
          rw [List.length_drop, hr0, List.length_drop]
          omega

/-- `FramedSerializer.dump_stream(iterator, stream)`: writes each object with
`_write_with_length`; `dumps obj` is the wrapped serializer's `dumps` result. -/
def framedDumpStream (dumps : α → Option (List Nat)) :
    List α → List Nat → Except PyErr (List Nat)
  | [], stream => .ok stream
  | obj :: objs, stream =>
    match writeWithLength (dumps obj) stream with
    | .error e => .error e
    | .ok stream1 => framedDumpStream dumps objs stream1

/-- `FramedSerializer.load_stream(stream)`: repeatedly `_read_with_length`,
ending normally on `EOFError` and propagating any other exception. -/
def framedLoadStream (loads : List Nat → β) (stream : List Nat) :
    Except PyErr (List (Option β)) :=
  match h : readWithLength loads stream with
  | .error .eofError => .ok []
  | .error e => .error e
  | .ok (v, rest) =>
    match framedLoadStream loads rest with
    | .error e => .error e
    | .ok tail => .ok (v :: tail)
termination_by stream.length
decreasing_by exact readWithLength_shrinks loads stream v rest h

/-- The record-grouping loop of `BatchedSerializer._batched` (the generic
`items`/`count` accumulation branch): append each record, and flush a group
whenever `count` reaches `batchSize`; a nonempty leftover group is flushed at
the end. -/
def batchedChunks (batchSize : Int) : List α → List α → Int → List (List α)
  | [], items, _count => if items.isEmpty then [] else [items]
  | x :: xs, items, count =>
    if count + 1 = batchSize then (items ++ [x]) :: batchedChunks batchSize xs [] 0
    else batchedChunks batchSize xs (items ++ [x]) (count + 1)

/-- `BatchedSerializer._batched(iterator)`: the whole record list as one batch
for `UNLIMITED_BATCH_SIZE` (-1), otherwise fixed-size groups.  (The Python-2
`__getslice__` slicing branch produces the same groups for list inputs.) -/
def pyBatched (batchSize : Int) (records : List α) : List (List α) :=
  if batchSize = -1 then [records]
  else batchedChunks batchSize records [] 0

/-- `BatchedSerializer.dump_stream(iterator, stream)`: frame each batch through
the wrapped framed serializer, whose `dumps` is `enc` here. -/
def batchedDumpStream (enc : List α → Option (List Nat)) (batchSize : Int)
    (records : List α) (stream : List Nat) : Except PyErr (List Nat) :=
  framedDumpStream enc (pyBatched batchSize records) stream

/-- `itertools.chain.from_iterable` over the loaded batch values: concatenates
the batches; a Python `None` batch value would raise a `TypeError`. -/
def chainFromIterable : List (Option (List α)) → Except PyErr (List α)
  | [] => .ok []
  | none :: _ => .error .typeError
  | some b :: rest =>
    match chainFromIterable rest with
    | .error e => .error e
    | .ok t => .ok (b ++ t)

/-- `BatchedSerializer.load_stream(stream)`:
`chain.from_iterable(self._load_stream_without_unbatching(stream))` where the
non-unbatching variant is the wrapped framed serializer's `load_stream`. -/
def batchedLoadStream (dec : List Nat → List α) (stream : List Nat) :
    Except PyErr (List α) :=
  match framedLoadStream dec stream with
  | .error e => .error e
  | .ok batches => chainFromIterable batches

/-- The bytes of one frame holding payload `b`. -/
def frameOf (b : List Nat) : List Nat :=
  intToBytes4 (b.length : Int) ++ b

theorem framedLoadStream_eof (loads : List Nat → β) (stream : List Nat)
    (h : readWithLength loads stream = .error .eofError) :
    framedLoadStream loads stream = .ok [] := by
  rw [framedLoadStream]
  split
  all_goals rename_i heq
  all_goals rw [h] at heq
  all_goals cases heq
  all_goals first
    | rfl
    | (rename_i hcontra; exact absurd rfl hcontra)

theorem framedLoadStream_ok_step (loads : List Nat → β) (stream : List Nat)
    (v : Option β) (rest : List Nat)
    (h : readWithLength loads stream = .ok (v, rest)) :
    framedLoadStream loads stream =
      match framedLoadStream loads rest with
      | .error e => .error e
      | .ok tail => .ok (v :: tail) := by
  rw [framedLoadStream]
  split
  all_goals rename_i heq
  all_goals rw [h] at heq
  all_goals cases heq
  all_goals first
    | rfl
    | (rename_i hcontra; exact absurd rfl hcontra)

theorem framedDumpStream_ok (enc : α → List Nat)
    (hlen : ∀ o, (enc o).length < 2147483648) :
    ∀ (objs : List α) (stream : List Nat),
      framedDumpStream (fun o => some (enc o)) objs stream =
        .ok (stream ++ (objs.map (fun o => frameOf (enc o))).flatten)
  | [], stream => by simp [framedDumpStream]
  | obj :: objs, stream => by
    rw [framedDumpStream, writeWithLength_ok (enc obj) (hlen obj) stream]
    show framedDumpStream (fun o => some (enc o)) objs
        (stream ++ intToBytes4 ((enc obj).length : Int) ++ enc obj) = _
    rw [framedDumpStream_ok enc hlen objs]
    simp [frameOf]

theorem framedLoadStream_nil (loads : List Nat → β) :
    framedLoadStream loads [] = .ok [] :=
  framedLoadStream_eof loads [] rfl

theorem framedLoadStream_frames (dec : List Nat → β) :
    ∀ (payloads : List (List Nat)),
      (∀ p ∈ payloads, p.length < 2147483648) →
      framedLoadStream dec (payloads.map frameOf).flatten =
        .ok (payloads.map (fun p => some (dec p)))
  | [], _ => by simpa using framedLoadStream_nil dec
  | p :: ps, hp => by
    have hplen : p.length < 2147483648 := hp p (by simp)
    have hrest : ∀ q ∈ ps, q.length < 2147483648 := fun q hq => hp q (by simp [hq])
    have hframe : ((p :: ps).map frameOf).flatten =
        intToBytes4 (p.length : Int) ++ p ++ (ps.map frameOf).flatten := by
      simp [frameOf]
    rw [hframe, framedLoadStream_ok_step dec _ (some (dec p)) ((ps.map frameOf).flatten)
      (readWithLength_frame dec p hplen ((ps.map frameOf).flatten))]
    rw [framedLoadStream_frames dec ps hrest]
    simp

theorem chainFromIterable_somes :
    ∀ bs : List (List α), chainFromIterable (bs.map some) = .ok bs.flatten
  | [] => by simp [chainFromIterable]
  | b :: bs => by
    rw [List.map_cons, chainFromIterable, chainFromIterable_somes bs]
    simp

theorem batchedChunks_join (batchSize : Int) :
    ∀ (xs items : List α) (count : Int),
      (batchedChunks batchSize xs items count).flatten = items ++ xs
  | [], items, count => by
    rw [batchedChunks]
    by_cases h : items.isEmpty
    · simp [h, List.isEmpty_iff.mp h]
    · simp [h]
  | x :: xs, items, count => by
    rw [batchedChunks]
    by_cases h : count + 1 = batchSize
    · simp [h, batchedChunks_join batchSize xs [] 0]
    · simp [h, batchedChunks_join batchSize xs (items ++ [x]) (count + 1)]

theorem pyBatched_join (batchSize : Int) (records : List α) :
    (pyBatched batchSize records).flatten = records := by
  rw [pyBatched]
  by_cases h : batchSize = -1
  · simp [h]
  · simp [h, batchedChunks_join]

/-- C5: for every record list and every fixed batching policy (unlimited `-1`
or fixed size `N ≥ 1`), deserializing what was serialized returns exactly the
records, in order, whenever the wrapped per-batch serializer round-trips and
stays under the 2^31-byte frame limit. -/
theorem batched_roundtrip (enc : List α → List Nat) (dec : List Nat → List α)
    (hdec : ∀ l, dec (enc l) = l) (hlen : ∀ l, (enc l).length < 2147483648)
    (batchSize : Int) (_hbs : batchSize = -1 ∨ 1 ≤ batchSize)
    (records : List α) :
    (batchedDumpStream (fun b => some (enc b)) batchSize records []).bind
      (batchedLoadStream dec) = .ok records := by
  rw [batchedDumpStream, framedDumpStream_ok enc hlen, List.nil_append,
    Except.bind, batchedLoadStream]
  have hmem : ∀ p ∈ (pyBatched batchSize records).map enc, p.length < 2147483648 := by
    intro p hp
    obtain ⟨b, _, rfl⟩ := List.mem_map.mp hp
    exact hlen b
  have hload := framedLoadStream_frames dec ((pyBatched batchSize records).map enc) hmem
  rw [List.map_map, List.map_map] at hload
  simp only [Function.comp_def] at hload
  have hmaps : (pyBatched batchSize records).map (fun b => some (dec (enc b))) =
      (pyBatched batchSize records).map some := by
    apply List.map_congr_left
    intro b _
    rw [hdec b]
  rw [hmaps] at hload
  rw [hload]
  show chainFromIterable ((pyBatched batchSize records).map some) = .ok records
  rw [chainFromIterable_somes, pyBatched_join]

theorem replicate_length_unit : ∀ l : List Unit, List.replicate l.length () = l
  | [] => rfl
  | () :: t => by rw [List.length_cons, List.replicate_succ, replicate_length_unit t]

/-- C5 witness: the batched round trip at records `[(), (), ()]`, batch size 2,
with the batch serializer that encodes a batch of units as its length. -/
theorem batched_roundtrip_witness :
    (∀ l : List Unit, List.replicate (([l.length] : List Nat).headD 0) () = l) ∧
    (∀ l : List Unit, ([l.length] : List Nat).length < 2147483648) ∧
    ((2 : Int) = -1 ∨ 1 ≤ (2 : Int)) ∧
    (batchedDumpStream (fun b : List Unit => some [b.length]) 2 [(), (), ()] []).bind
        (batchedLoadStream (fun bs => List.replicate (bs.headD 0) ())) =
      .ok [(), (), ()] :=
  ⟨fun l => replicate_length_unit l, fun l => by simp, Or.inr (by norm_num),
    batched_roundtrip (fun l : List Unit => [l.length])
      (fun bs => List.replicate (bs.headD 0) ())
      (fun l => replicate_length_unit l) (fun l => by simp) 2
      (Or.inr (by norm_num)) [(), (), ()]⟩

/-- The body of `AutoBatchedSerializer.dump_stream`, recorded as the trace of
`(batch, size)` pairs: `batch` is the batch size used for an emitted batch and
`size` the byte length of its serialized blob.  Each iteration takes
`itertools.islice(iterator, batch)` records, stops when the slice is empty,
serializes it (`sizeOfBatch` is `len(self.serializer.dumps(vs))`), and then
doubles `batch` when `size < best`, halves it when `size > best * 10` and
`batch > 1`. -/
def autoBatchedTrace (sizeOfBatch : List α → Nat) (best : Nat) :
    Nat → List α → List (Nat × Nat)
  | batch, records =>
    if h : (records.take batch).isEmpty then []
    else
      let size := sizeOfBatch (records.take batch)
      let nextBatch :=
        if size < best then batch * 2
        else if size > best * 10 ∧ batch > 1 then batch / 2
        else batch
      (batch, size) :: autoBatchedTrace sizeOfBatch best nextBatch (records.drop batch)
termination_by batch records => records.length
decreasing_by
  have h1 : records ≠ [] := by
    intro hc
    rw [hc] at h
    simp at h
  have h2 : batch ≠ 0 := by
    intro hc
    rw [hc] at h
    simp at h
  have := List.length_drop batch records
  cases records with
  | nil => exact absurd rfl h1
  | cons a t =>
    rw [this]
    simp only [List.length_cons]
    omega

/-- `AutoBatchedSerializer.dump_stream` starts the adaptive loop with
`batch = 1`. -/
def autoBatchedSizes (sizeOfBatch : List α → Nat) (best : Nat)
    (records : List α) : List (Nat × Nat) :=
  autoBatchedTrace sizeOfBatch best 1 records

theorem autoBatchedTrace_pos (sizeOfBatch : List α → Nat) (best : Nat) :
    ∀ (records : List α) (batch : Nat), 1 ≤ batch →
      ∀ p ∈ autoBatchedTrace sizeOfBatch best batch records, 1 ≤ p.1
  | records, batch, hb => by
    rw [autoBatchedTrace]
    split
    · intro p hp
      exact absurd hp (by simp)
    · rename_i h
      intro p hp
      rcases List.mem_cons.mp hp with hp | hp
      · rw [hp]
        exact hb
      · have h2 : batch ≠ 0 := by
          intro hc
          rw [hc] at h
          simp at h
        have h1 : records ≠ [] := by
          intro hc
          rw [hc] at h
          simp at h
        have hlt : (records.drop batch).length < records.length := by
          cases records with
          | nil => exact absurd rfl h1
          | cons a t =>
            rw [List.length_drop]
            simp only [List.length_cons]
            omega
        refine autoBatchedTrace_pos sizeOfBatch best (records.drop batch) _ ?_ p hp
        split
        · omega
        · split
          · rename_i h10
            omega
          · omega
  termination_by records _ _ => records.length
  decreasing_by exact hlt

theorem autoBatchedTrace_head (f : List α → Nat) (best : Nat)
    (recs : List α) (b : Nat) (q : Nat × Nat)
    (h : (autoBatchedTrace f best b recs)[0]? = some q) :
    q = (b, f (recs.take b)) := by
  rw [autoBatchedTrace] at h
  split at h
  · simp at h
  · simp only [List.getElem?_cons_zero] at h
    exact (Option.some_inj.mp h).symm

theorem autoBatchedTrace_adj (f : List α → Nat) (best : Nat) :
    ∀ (records : List α) (batch i : Nat) (p q : Nat × Nat),
      (autoBatchedTrace f best batch records)[i]? = some p →
      (autoBatchedTrace f best batch records)[i + 1]? = some q →
      q.1 = if p.2 < best then p.1 * 2
        else if p.2 > best * 10 ∧ p.1 > 1 then p.1 / 2 else p.1
  | records, batch, i, p, q => by
    intro hp hq
    rw [autoBatchedTrace] at hp hq
    split at hp
    · simp at hp
    · rename_i h
      rw [dif_neg h] at hq
      have h2 : batch ≠ 0 := by
        intro hc
        rw [hc] at h
        simp at h
      have h1 : records ≠ [] := by
        intro hc
        rw [hc] at h
        simp at h
      have hlt : (records.drop batch).length < records.length := by
        cases records with
        | nil => exact absurd rfl h1
        | cons a t =>
          rw [List.length_drop]
          simp only [List.length_cons]
          omega
      cases i with
      | zero =>
        simp only [List.getElem?_cons_zero] at hp
        simp only [List.getElem?_cons_succ] at hq
        have hqv := autoBatchedTrace_head f best (records.drop batch) _ q hq
        have hpv : p = (batch, f (records.take batch)) := (Option.some_inj.mp hp).symm
        rw [hqv, hpv]
      | succ n =>
        simp only [List.getElem?_cons_succ] at hp hq
        exact autoBatchedTrace_adj f best (records.drop batch) _ n p q hp hq
  termination_by records _ _ _ _ => records.length
  decreasing_by exact hlt

/-- C6: the adaptive batching loop of `AutoBatchedSerializer.dump_stream`
starts with batch size 1; after each emitted batch the next batch size is
doubled when the blob size is strictly below the target, halved when the size
exceeds 10x the target and the batch size exceeds 1, and kept otherwise; and
every batch size in the trace is at least 1. -/
theorem autoBatched_policy (f : List α → Nat) (best : Nat) (records : List α) :
    (∀ q, (autoBatchedSizes f best records)[0]? = some q → q.1 = 1) ∧
    (∀ i p q, (autoBatchedSizes f best records)[i]? = some p →
      (autoBatchedSizes f best records)[i + 1]? = some q →
      q.1 = if p.2 < best then p.1 * 2
        else if p.2 > best * 10 ∧ p.1 > 1 then p.1 / 2 else p.1) ∧
    (∀ p ∈ autoBatchedSizes f best records, 1 ≤ p.1) := by
  refine ⟨?_, ?_, ?_⟩
  · intro q hq
    rw [autoBatchedTrace_head f best records 1 q hq]
  · intro i p q hp hq
    exact autoBatchedTrace_adj f best records 1 i p q hp hq
  · exact autoBatchedTrace_pos f best records 1 (le_refl 1)

/-- C6 witness: a one-batch run (one unit record, 100-byte blobs, 150-byte
target) whose trace is `[(1, 100)]`, instantiating the start-at-1 conjunct. -/
theorem autoBatched_policy_witness :
    (autoBatchedSizes (fun vs : List Unit => vs.length * 100) 150 [()])[0]? =
        some (1, 100) ∧
      ((1, 100) : Nat × Nat).1 = 1 := by
  have htrace : autoBatchedSizes (fun vs : List Unit => vs.length * 100) 150 [()] =
      [(1, 100)] := by
    rw [autoBatchedSizes, autoBatchedTrace]
    norm_num
    rw [autoBatchedTrace]
    norm_num
  have hfst : (autoBatchedSizes (fun vs : List Unit => vs.length * 100) 150 [()])[0]? =
      some (1, 100) := by
    rw [htrace]
    rfl
  exact ⟨hfst, (autoBatched_policy (fun vs : List Unit => vs.length * 100) 150 [()]).1
    (1, 100) hfst⟩

/-- The `ValueError` message of `PairDeserializer` (Python formats the two
batch lengths into it with `%d`). -/
def pairMismatchMsg (m n : Nat) : String :=
  "Can not deserialize PairRDD with different number of items in batches: (" ++
    toString m ++ ", " ++ toString n ++ ")"

/-- `PairDeserializer.load_stream`: the two batch streams (as produced by
`key_ser._load_stream_without_unbatching` and
`val_ser._load_stream_without_unbatching`) are consumed in lockstep by
`zip(key_batch_stream, val_batch_stream)`, which stops at the shorter stream;
each pair of batches must have equal lengths or a `ValueError` is raised; the
zipped pairs are flattened by `chain.from_iterable`. -/
def pairLoadStream : List (List α) → List (List β) → Except PyErr (List (α × β))
  | [], _ => .ok []
  | _ :: _, [] => .ok []
  | kb :: ks, vb :: vs =>
    if kb.length ≠ vb.length then
      .error (.valueError (pairMismatchMsg kb.length vb.length))
    else
      match pairLoadStream ks vs with
      | .error e => .error e
      | .ok rest => .ok (kb.zip vb ++ rest)

/-- `itertools.product(key_batch, val_batch)`: the nested loop
`for k in key_batch: for v in val_batch: yield (k, v)` (row-major order). -/
def pyProduct : List α → List β → List (α × β)
  | [], _ => []
  | k :: ks, vs => vs.map (fun v => (k, v)) ++ pyProduct ks vs

/-- `CartesianDeserializer.load_stream`: batch streams zipped in lockstep, each
pair of batches replaced by its cartesian product, flattened. -/
def cartesianLoadStream (ks : List (List α)) (vs : List (List β)) : List (α × β) :=
  ((ks.zip vs).map (fun p => pyProduct p.1 p.2)).flatten

theorem pairLoadStream_mismatch :
    ∀ (ks : List (List α)) (vs : List (List β)) (i : Nat) (kb : List α) (vb : List β),
      ks[i]? = some kb → vs[i]? = some vb → kb.length ≠ vb.length →
      ∃ msg, pairLoadStream ks vs = .error (.valueError msg)
  | [], _, i, kb, vb => by
    intro hk _ _
    simp at hk
  | _ :: _, [], i, kb, vb => by
    intro _ hv _
    simp at hv
  | kb0 :: ks, vb0 :: vs, 0, kb, vb => by
    intro hk hv hne
    simp only [List.getElem?_cons_zero] at hk hv
    cases hk
    cases hv
    exact ⟨pairMismatchMsg kb0.length vb0.length, by rw [pairLoadStream, if_pos hne]⟩
  | kb0 :: ks, vb0 :: vs, i + 1, kb, vb => by
    intro hk hv hne
    simp only [List.getElem?_cons_succ] at hk hv
    by_cases h0 : kb0.length ≠ vb0.length
    · exact ⟨pairMismatchMsg kb0.length vb0.length, by rw [pairLoadStream, if_pos h0]⟩
    · obtain ⟨msg, hmsg⟩ := pairLoadStream_mismatch ks vs i kb vb hk hv hne
      refine ⟨msg, ?_⟩
      rw [pairLoadStream, if_neg h0, hmsg]

theorem pairLoadStream_zip :
    ∀ (ks : List (List α)) (vs : List (List β)),
      (∀ (i : Nat) (kb : List α) (vb : List β), ks[i]? = some kb → vs[i]? = some vb → kb.length = vb.length) →
      pairLoadStream ks vs = .ok (ks.flatten.zip vs.flatten)
  | [], vs => by
    intro _
    rw [pairLoadStream]
    simp
  | kb0 :: ks, [] => by
    intro _
    rw [pairLoadStream]
    simp
  | kb0 :: ks, vb0 :: vs => by
    intro h
    have h0 : kb0.length = vb0.length := h 0 kb0 vb0 (by simp) (by simp)
    have hrec := pairLoadStream_zip ks vs
      (fun i kb vb hk hv => h (i + 1) kb vb (by simpa using hk) (by simpa using hv))
    rw [pairLoadStream, if_neg (by omega), hrec]
    simp only [List.flatten_cons]
    rw [List.zip_append h0]

/-- C7: for the pair (zip) deserializer over two batched streams: a length
mismatch between two corresponding batches makes `load_stream` raise the
size-mismatch `ValueError`, and when every pair of corresponding batches has
equal length and the streams have equal total length, `load_stream` yields
exactly the elementwise zip of the two record sequences, in order. -/
theorem pair_deserializer_spec (ks : List (List α)) (vs : List (List β)) :
    ((∃ (i : Nat) (kb : List α) (vb : List β), ks[i]? = some kb ∧ vs[i]? = some vb ∧ kb.length ≠ vb.length) →
      ∃ msg, pairLoadStream ks vs = .error (.valueError msg)) ∧
    ((∀ (i : Nat) (kb : List α) (vb : List β), ks[i]? = some kb → vs[i]? = some vb → kb.length = vb.length) →
      ks.flatten.length = vs.flatten.length →
      pairLoadStream ks vs = .ok (ks.flatten.zip vs.flatten)) := by
  constructor
  · rintro ⟨i, kb, vb, hk, hv, hne⟩
    exact pairLoadStream_mismatch ks vs i kb vb hk hv hne
  · intro h _
    exact pairLoadStream_zip ks vs h

/-- C7 witness: a mismatch at the second batch pair raises, and aligned
streams `[[1],[2,3]]` and `[[4],[5,6]]` zip elementwise. -/
theorem pair_deserializer_spec_witness :
    ((∃ (i : Nat) (kb vb : List Nat), ([[1], [2, 3]] : List (List Nat))[i]? = some kb ∧
        ([[4], [5]] : List (List Nat))[i]? = some vb ∧ kb.length ≠ vb.length) ∧
      (∃ msg, pairLoadStream [[1], [2, 3]] [[4], [5]] =
        .error (.valueError msg))) ∧
    (pairLoadStream [[1], [2, 3]] [[4], [5, 6]] =
      .ok [(1, 4), (2, 5), (3, 6)]) := by
  have hpw : ∀ (i : Nat) (kb vb : List Nat),
      ([[1], [2, 3]] : List (List Nat))[i]? = some kb →
      ([[4], [5, 6]] : List (List Nat))[i]? = some vb → kb.length = vb.length := by
    intro i kb vb hk hv
    match i with
    | 0 =>
      simp only [List.getElem?_cons_zero, Option.some_inj] at hk hv
      rw [← hk, ← hv]
      rfl
    | 1 =>
      simp only [List.getElem?_cons_succ, List.getElem?_cons_zero,
        Option.some_inj] at hk hv
      rw [← hk, ← hv]
      rfl
    | n + 2 =>
      simp at hk
  constructor
  · refine ⟨⟨1, [2, 3], [5], by decide, by decide, by decide⟩, ?_⟩
    exact (pair_deserializer_spec [[1], [2, 3]] [[4], [5]]).1
      ⟨1, [2, 3], [5], by decide, by decide, by decide⟩
  · have := (pair_deserializer_spec ([[1], [2, 3]] : List (List Nat))
      ([[4], [5, 6]] : List (List Nat))).2 hpw (by rfl)
    rw [this]
    rfl

theorem pairLoadStream_min :
    ∀ (ks : List (List α)) (vs : List (List β)),
      (∀ (i : Nat) (kb : List α) (vb : List β),
        ks[i]? = some kb → vs[i]? = some vb → kb.length = vb.length) →
      pairLoadStream ks vs =
        .ok (((ks.take (min ks.length vs.length)).flatten).zip
          ((vs.take (min ks.length vs.length)).flatten))
  | [], vs => by
    intro _
    rw [pairLoadStream]
    simp
  | kb0 :: ks, [] => by
    intro _
    rw [pairLoadStream]
    simp
  | kb0 :: ks, vb0 :: vs => by
    intro h
    have h0 : kb0.length = vb0.length := h 0 kb0 vb0 (by simp) (by simp)
    have hrec := pairLoadStream_min ks vs
      (fun i kb vb hk hv => h (i + 1) kb vb (by simpa using hk) (by simpa using hv))
    rw [pairLoadStream, if_neg (by omega), hrec]
    simp only [List.length_cons, Nat.succ_min_succ, List.take_succ_cons,
      List.flatten_cons]
    rw [List.zip_append h0]

/-- C10: when the two batch streams diverge in batch count — either stream may
be the one that is exhausted at a position where the other still yields a
batch — the pair deserializer ends silently: no error is raised and the
surviving stream's extra batches (and their records) are discarded, the output
covering only the common prefix of batch positions. -/
theorem pair_deserializer_truncation (ks : List (List α)) (vs : List (List β))
    (_hlen : ks.length ≠ vs.length)
    (h : ∀ (i : Nat) (kb : List α) (vb : List β),
      ks[i]? = some kb → vs[i]? = some vb → kb.length = vb.length) :
    pairLoadStream ks vs =
      .ok (((ks.take (min ks.length vs.length)).flatten).zip
        ((vs.take (min ks.length vs.length)).flatten)) :=
  pairLoadStream_min ks vs h

/-- C10 witness: both directions of divergence — `[[1], [9]]` against `[[2]]`
(value stream exhausts first, key batch `[9]` discarded) and `[[1]]` against
`[[2], [3, 4]]` (key stream exhausts first, value batch `[3, 4]` discarded) —
both succeed with output `[(1, 2)]`. -/
theorem pair_deserializer_truncation_witness :
    (([[1], [9]] : List (List Nat)).length ≠ ([[2]] : List (List Nat)).length ∧
      pairLoadStream [[1], [9]] [[2]] = .ok [(1, 2)]) ∧
    (([[1]] : List (List Nat)).length ≠ ([[2], [3, 4]] : List (List Nat)).length ∧
      pairLoadStream [[1]] [[2], [3, 4]] = .ok [(1, 2)]) := by
  have hpw1 : ∀ (i : Nat) (kb vb : List Nat),
      ([[1], [9]] : List (List Nat))[i]? = some kb →
      ([[2]] : List (List Nat))[i]? = some vb → kb.length = vb.length := by
    intro i kb vb hk hv
    match i with
    | 0 =>
      simp only [List.getElem?_cons_zero, Option.some_inj] at hk hv
      rw [← hk, ← hv]
      rfl
    | n + 1 =>
      simp at hv
  have hpw2 : ∀ (i : Nat) (kb vb : List Nat),
      ([[1]] : List (List Nat))[i]? = some kb →
      ([[2], [3, 4]] : List (List Nat))[i]? = some vb → kb.length = vb.length := by
    intro i kb vb hk hv
    match i with
    | 0 =>
      simp only [List.getElem?_cons_zero, Option.some_inj] at hk hv
      rw [← hk, ← hv]
      rfl
    | n + 1 =>
      simp at hk
  refine ⟨⟨by decide, ?_⟩, ⟨by decide, ?_⟩⟩
  · exact pair_deserializer_truncation [[1], [9]] [[2]] (by decide) hpw1
  · exact pair_deserializer_truncation [[1]] [[2], [3, 4]] (by decide) hpw2

theorem pyProduct_length (vb : List β) :
    ∀ kb : List α, (pyProduct kb vb).length = kb.length * vb.length
  | [] => by simp [pyProduct]
  | k :: ks => by
    rw [pyProduct]
    simp only [List.length_append, List.length_map, pyProduct_length vb ks,
      List.length_cons]
    ring

theorem pyProduct_get (vb : List β) :
    ∀ (kb : List α) (i j : Nat) (k : α) (v : β),
      kb[i]? = some k → vb[j]? = some v →
      (pyProduct kb vb)[i * vb.length + j]? = some (k, v)
  | [], i, j, k, v => by
    intro hk _
    simp at hk
  | k0 :: ks, 0, j, k, v => by
    intro hk hv
    simp only [List.getElem?_cons_zero] at hk
    obtain rfl : k0 = k := Option.some_inj.mp hk
    have hj : j < vb.length := by
      by_contra hc
      rw [List.getElem?_eq_none (by omega)] at hv
      cases hv
    rw [pyProduct, Nat.zero_mul, Nat.zero_add,
      List.getElem?_append_left (by simpa using hj), List.getElem?_map, hv]
    rfl
  | k0 :: ks, i + 1, j, k, v => by
    intro hk hv
    simp only [List.getElem?_cons_succ] at hk
    have hj : j < vb.length := by
      by_contra hc
      rw [List.getElem?_eq_none (by omega)] at hv
      cases hv
    have hidx : (i + 1) * vb.length + j =
        (vb.map (fun v => (k0, v))).length + (i * vb.length + j) := by
      rw [List.length_map]
      ring
    rw [pyProduct, hidx, List.getElem?_append_right (by omega)]
    have : (vb.map (fun v => (k0, v))).length + (i * vb.length + j) -
        (vb.map (fun v => (k0, v))).length = i * vb.length + j := by omega
    rw [this]
    exact pyProduct_get vb ks i j k v hk hv

theorem cartesianLoadStream_single (kb : List α) (vb : List β) :
    cartesianLoadStream [kb] [vb] = pyProduct kb vb := by
  rw [cartesianLoadStream]
  simp

/-- C8: for the cartesian deserializer, a single pair of batches of sizes
`m`, `n` yields exactly `m * n` pairs, in row-major order: position
`i * n + j` holds the pair of the `i`-th key and the `j`-th value, so the key
(first-batch element) varies slowest. -/
theorem cartesian_single_pair (kb : List α) (vb : List β) :
    (cartesianLoadStream [kb] [vb]).length = kb.length * vb.length ∧
    (∀ (i j : Nat) (k : α) (v : β), kb[i]? = some k → vb[j]? = some v →
      (cartesianLoadStream [kb] [vb])[i * vb.length + j]? = some (k, v)) := by
  rw [cartesianLoadStream_single]
  exact ⟨pyProduct_length vb kb, fun i j k v hk hv => pyProduct_get vb kb i j k v hk hv⟩

/-- C8 witness: batches `[1, 2]` and `[10, 20, 30]` give 6 pairs with
`(2, 10)` at row-major position `1 * 3 + 0`. -/
theorem cartesian_single_pair_witness :
    (cartesianLoadStream [[1, 2]] [[10, 20, 30]]).length = 2 * 3 ∧
      (([1, 2] : List Nat)[1]? = some 2 ∧ ([10, 20, 30] : List Nat)[0]? = some 10 ∧
        (cartesianLoadStream [[1, 2]] [[10, 20, 30]])[1 * 3 + 0]? = some (2, 10)) :=
  ⟨(cartesian_single_pair [1, 2] [10, 20, 30]).1, by decide, by decide,
    (cartesian_single_pair [1, 2] [10, 20, 30]).2 1 0 2 10 (by decide) (by decide)⟩

mutual
/-- Modelled from the spec: the engine (Spark) data-type language of the typed
column value model (`pyspark/sql/types.py` is not among the sources; the
constructors and the fields consumed by `to_arrow_type` — decimal
precision/scale, array element type, map key/value types, struct field
name/type/nullability — follow the spec's data model section). -/
inductive SparkType where
  | booleanType
  | byteType
  | shortType
  | integerType
  | longType
  | floatType
  | doubleType
  | decimalType (precision scale : Nat)
  | stringType
  | binaryType
  | dateType
  | timestampType
  | timestampNTZType
  | dayTimeIntervalType
  | arrayType (elementType : SparkType)
  | mapType (keyType valueType : SparkType)
  | structType (fields : SparkFields)
  | nullType

/-- The field list of a Spark struct type: name, data type, nullability. -/
inductive SparkFields where
  | nil
  | cons (name : String) (dataType : SparkType) (nullable : Bool) (rest : SparkFields)
end

mutual
/-- The pyarrow types produced and consumed by `to_arrow_type` /
`from_arrow_type`: the timestamp unit is always `us` in this code path, so only
the timezone is tracked; `dictionary` keeps only the value type (the index type
is never consulted). -/
inductive ArrowType where
  | boolean
  | int8
  | int16
  | int32
  | int64
  | float32
  | float64
  | decimal128 (precision scale : Nat)
  | string
  | binary
  | date32
  | timestamp (tz : Option String)
  | duration
  | list (valueType : ArrowType)
  | map (keyType itemType : ArrowType)
  | struct (fields : ArrowFields)
  | dictionary (valueType : ArrowType)
  | null

/-- The field list of an arrow struct type: name, type, nullability. -/
inductive ArrowFields where
  | nil
  | cons (name : String) (ty : ArrowType) (nullable : Bool) (rest : ArrowFields)
end

/-- `type(dt) == TimestampType` for the checks inside `to_arrow_type`. -/
def SparkType.isTimestampType : SparkType → Bool
  | .timestampType => true
  | _ => false

/-- `type(dt) == StructType` for the checks inside `to_arrow_type`. -/
def SparkType.isStructType : SparkType → Bool
  | .structType _ => true
  | _ => false

/-- `any(type(field.dataType) == StructType for field in dt)` over a struct's
fields. -/
def hasStructField : SparkFields → Bool
  | .nil => false
  | .cons _ dt _ rest => dt.isStructType || hasStructField rest

/-- The nested-struct check applied to an array element type: true when the
element is a struct one of whose fields is again a struct. -/
def SparkType.structElemNested : SparkType → Bool
  | .structType fs => hasStructField fs
  | _ => false

/-- `types.is_timestamp(at)` (any unit, any timezone). -/
def ArrowType.isTimestamp : ArrowType → Bool
  | .timestamp _ => true
  | _ => false

/-- `types.is_struct(at)`. -/
def ArrowType.isStruct : ArrowType → Bool
  | .struct _ => true
  | _ => false

/-- `any(types.is_struct(field.type) for field in at)`. -/
def arrowHasStructField : ArrowFields → Bool
  | .nil => false
  | .cons _ ty _ rest => ty.isStruct || arrowHasStructField rest

/-- Modelled from the spec: the pinned columnar-library version is at least
2.0.0, so every `LooseVersion(pa.__version__) < LooseVersion("2.0.0")` guard in
`types.py` is false. -/
def pyarrowAtLeast2 : Bool := true

mutual
/-- `to_arrow_type(dt)` from `python/pyspark/sql/pandas/types.py`: Spark type
to pyarrow type; raises `PySparkTypeError` (modelled as `.error` carrying the
`error_class`) on the unsupported combinations. -/
def toArrowType : SparkType → Except String ArrowType
  | .booleanType => .ok .boolean
  | .byteType => .ok .int8
  | .shortType => .ok .int16
  | .integerType => .ok .int32
  | .longType => .ok .int64
  | .floatType => .ok .float32
  | .doubleType => .ok .float64
  | .decimalType precision scale => .ok (.decimal128 precision scale)
  | .stringType => .ok .string
  | .binaryType => .ok .binary
  | .dateType => .ok .date32
  | .timestampType => .ok (.timestamp (some "UTC"))
  | .timestampNTZType => .ok (.timestamp none)
  | .dayTimeIntervalType => .ok .duration
  | .arrayType elementType =>
    if elementType.isTimestampType then .error "UNSUPPORTED_DATA_TYPE"
    else if elementType.isStructType && !pyarrowAtLeast2 then
      .error "UNSUPPORTED_DATA_TYPE_FOR_ARROW_VERSION"
    else if elementType.structElemNested then
      .error "UNSUPPORTED_DATA_TYPE_FOR_ARROW_CONVERSION"
    else
      match toArrowType elementType with
      | .error e => .error e
      | .ok a => .ok (.list a)
  | .mapType keyType valueType =>
    if !pyarrowAtLeast2 then .error "UNSUPPORTED_DATA_TYPE_FOR_ARROW_VERSION"
    else if keyType.isStructType || keyType.isTimestampType ||
        valueType.isStructType || valueType.isTimestampType then
      .error "UNSUPPORTED_DATA_TYPE_FOR_ARROW_CONVERSION"
    else
      match toArrowType keyType, toArrowType valueType with
      | .error e, _ => .error e
      | .ok _, .error e => .error e
      | .ok k, .ok v => .ok (.map k v)
  | .structType fields =>
    if hasStructField fields then .error "UNSUPPORTED_DATA_TYPE_FOR_ARROW_CONVERSION"
    else
      match toArrowFields fields with
      | .error e => .error e
      | .ok afs => .ok (.struct afs)
  | .nullType => .ok .null

/-- The field-list comprehension `[pa.field(f.name, to_arrow_type(f.dataType),
nullable=f.nullable) for f in dt]`. -/
def toArrowFields : SparkFields → Except String ArrowFields
  | .nil => .ok .nil
  | .cons name dt nullable rest =>
    match toArrowType dt, toArrowFields rest with
    | .error e, _ => .error e
    | .ok _, .error e => .error e
    | .ok a, .ok afs => .ok (.cons name a nullable afs)
end

mutual
/-- `from_arrow_type(at, prefer_timestamp_ntz)`: pyarrow type back to Spark
type.  All recursive calls in the source omit `prefer_timestamp_ntz`, so they
use the default `False`; only the outermost call sees the caller's flag. -/
def fromArrowType (prefer : Bool) : ArrowType → Except String SparkType
  | .boolean => .ok .booleanType
  | .int8 => .ok .byteType
  | .int16 => .ok .shortType
  | .int32 => .ok .integerType
  | .int64 => .ok .longType
  | .float32 => .ok .floatType
  | .float64 => .ok .doubleType
  | .decimal128 precision scale => .ok (.decimalType precision scale)
  | .string => .ok .stringType
  | .binary => .ok .binaryType
  | .date32 => .ok .dateType
  | .timestamp tz =>
    if prefer && tz.isNone then .ok .timestampNTZType else .ok .timestampType
  | .duration => .ok .dayTimeIntervalType
  | .list valueType =>
    if valueType.isTimestamp then .error "UNSUPPORTED_DATA_TYPE_FOR_ARROW_CONVERSION"
    else
      match fromArrowType false valueType with
      | .error e => .error e
      | .ok t => .ok (.arrayType t)
  | .map keyType itemType =>
    if !pyarrowAtLeast2 then .error "UNSUPPORTED_DATA_TYPE_FOR_ARROW_VERSION"
    else if keyType.isTimestamp || itemType.isTimestamp then
      .error "UNSUPPORTED_DATA_TYPE_FOR_ARROW_CONVERSION"
    else
      match fromArrowType false keyType, fromArrowType false itemType with
      | .error e, _ => .error e
      | .ok _, .error e => .error e
      | .ok k, .ok v => .ok (.mapType k v)
  | .struct fields =>
    if arrowHasStructField fields then
      .error "UNSUPPORTED_DATA_TYPE_FOR_ARROW_CONVERSION"
    else
      match fromArrowFields fields with
      | .error e => .error e
      | .ok fs => .ok (.structType fs)
  | .dictionary valueType => fromArrowType false valueType
  | .null => .ok .nullType

/-- The struct-field list comprehension of `from_arrow_type`. -/
def fromArrowFields : ArrowFields → Except String SparkFields
  | .nil => .ok .nil
  | .cons name ty nullable rest =>
    match fromArrowType false ty, fromArrowFields rest with
    | .error e, _ => .error e
    | .ok _, .error e => .error e
    | .ok t, .ok fs => .ok (.cons name t nullable fs)
end

mutual
/-- No `TimestampNTZType` occurs anywhere in the type.  Because every
*recursive* `from_arrow_type` call uses the default `prefer_timestamp_ntz =
False`, a nested `TimestampNTZType` cannot survive a round trip. -/
def noNTZ : SparkType → Bool
  | .timestampNTZType => false
  | .arrayType e => noNTZ e
  | .mapType k v => noNTZ k && noNTZ v
  | .structType fs => noNTZFields fs
  | _ => true

/-- `noNTZ` over a struct's field types. -/
def noNTZFields : SparkFields → Bool
  | .nil => true
  | .cons _ dt _ rest => noNTZ dt && noNTZFields rest
end

/-- The round-trippable types: `TimestampNTZType` is allowed only as the whole
type (where the caller's `prefer_timestamp_ntz=True` applies), not inside. -/
def cleanTop : SparkType → Bool
  | .timestampNTZType => true
  | t => noNTZ t

/-- Shape of every successful `to_arrow_type` result: timestamps come only
from the two timestamp types, structs only from struct types, and everything
else is neither a timestamp nor a struct. -/
theorem toArrow_ok_cases : ∀ (t : SparkType) (a : ArrowType),
    toArrowType t = .ok a →
    (t = .timestampType ∧ a = .timestamp (some "UTC")) ∨
    (t = .timestampNTZType ∧ a = .timestamp none) ∨
    (t.isStructType = true ∧ a.isStruct = true) ∨
    (a.isTimestamp = false ∧ a.isStruct = false) := by
  intro t a h
  cases t <;> simp only [toArrowType] at h
  case timestampType => cases h; exact Or.inl ⟨rfl, rfl⟩
  case timestampNTZType => cases h; exact Or.inr (Or.inl ⟨rfl, rfl⟩)
  case arrayType e =>
    by_cases h1 : e.isTimestampType
    · rw [if_pos h1] at h
      exact Except.noConfusion h
    · rw [if_neg h1] at h
      by_cases h2 : e.isStructType && !pyarrowAtLeast2
      · rw [if_pos h2] at h
        exact Except.noConfusion h
      · rw [if_neg h2] at h
        by_cases h3 : e.structElemNested
        · rw [if_pos h3] at h
          exact Except.noConfusion h
        · rw [if_neg h3] at h
          cases he : toArrowType e with
          | error err => rw [he] at h; exact Except.noConfusion h
          | ok ae =>
            rw [he] at h
            cases h
            exact Or.inr (Or.inr (Or.inr ⟨rfl, rfl⟩))
  case mapType k v =>
    rw [if_neg (by simp [pyarrowAtLeast2])] at h
    by_cases hks : k.isStructType || k.isTimestampType ||
        v.isStructType || v.isTimestampType
    · rw [if_pos hks] at h
      exact Except.noConfusion h
    · rw [if_neg hks] at h
      cases hk : toArrowType k with
      | error err => rw [hk] at h; exact Except.noConfusion h
      | ok ak =>
        cases hv : toArrowType v with
        | error err => rw [hk, hv] at h; exact Except.noConfusion h
        | ok av =>
          rw [hk, hv] at h
          cases h
          exact Or.inr (Or.inr (Or.inr ⟨rfl, rfl⟩))
  case structType fs =>
    by_cases hsf : hasStructField fs
    · rw [if_pos hsf] at h
      exact Except.noConfusion h
    · rw [if_neg hsf] at h
      cases hfs : toArrowFields fs with
      | error err => rw [hfs] at h; exact Except.noConfusion h
      | ok afs =>
        rw [hfs] at h
        cases h
        exact Or.inr (Or.inr (Or.inl ⟨rfl, rfl⟩))
  all_goals (cases h; exact Or.inr (Or.inr (Or.inr ⟨rfl, rfl⟩)))

theorem toArrow_timestamp_inv (t : SparkType) (a : ArrowType)
    (h : toArrowType t = .ok a) (ha : a.isTimestamp = true) :
    t = .timestampType ∨ t = .timestampNTZType := by
  rcases toArrow_ok_cases t a h with ⟨ht, _⟩ | ⟨ht, _⟩ | ⟨_, hs⟩ | ⟨hts, _⟩
  · exact Or.inl ht
  · exact Or.inr ht
  · cases a <;> simp_all [ArrowType.isStruct, ArrowType.isTimestamp]
  · rw [ha] at hts
    cases hts

theorem toArrow_struct_inv (t : SparkType) (a : ArrowType)
    (h : toArrowType t = .ok a) (ha : a.isStruct = true) :
    t.isStructType = true := by
  rcases toArrow_ok_cases t a h with ⟨ht, hA⟩ | ⟨ht, hA⟩ | ⟨hs, _⟩ | ⟨_, hs⟩
  · rw [hA] at ha
    simp [ArrowType.isStruct] at ha
  · rw [hA] at ha
    simp [ArrowType.isStruct] at ha
  · exact hs
  · rw [ha] at hs
    cases hs

theorem toArrow_timestamp_none_inv (t : SparkType)
    (h : toArrowType t = .ok (.timestamp none)) : t = .timestampNTZType := by
  rcases toArrow_ok_cases t _ h with ⟨_, hA⟩ | ⟨ht, _⟩ | ⟨_, hs⟩ | ⟨hts, _⟩
  · cases hA
  · exact ht
  · simp [ArrowType.isStruct] at hs
  · simp [ArrowType.isTimestamp] at hts

theorem arrowFields_no_struct : ∀ (fs : SparkFields) (afs : ArrowFields),
    toArrowFields fs = .ok afs → hasStructField fs = false →
    arrowHasStructField afs = false
  | .nil, afs => by
    intro h _
    cases h
    rfl
  | .cons name dt nullable rest, afs => by
    intro h hsf
    simp only [toArrowFields] at h
    simp only [hasStructField, Bool.or_eq_false_iff] at hsf
    cases hdt : toArrowType dt with
    | error e => rw [hdt] at h; exact Except.noConfusion h
    | ok a =>
      cases hrest : toArrowFields rest with
      | error e => rw [hdt, hrest] at h; exact Except.noConfusion h
      | ok afs' =>
        rw [hdt, hrest] at h
        cases h
        simp only [arrowHasStructField]
        have ha : a.isStruct = false := by
          cases hx : a.isStruct
          · rfl
          · have hdts := toArrow_struct_inv dt a hdt hx
            rw [hsf.1] at hdts
            cases hdts
        rw [ha, arrowFields_no_struct rest afs' hrest hsf.2]
        rfl

mutual

theorem toFrom_noNTZ : ∀ (t : SparkType) (a : ArrowType),
    noNTZ t = true → toArrowType t = .ok a → fromArrowType false a = .ok t
  | .booleanType, a => by intro _ h; cases h; rfl
  | .byteType, a => by intro _ h; cases h; rfl
  | .shortType, a => by intro _ h; cases h; rfl
  | .integerType, a => by intro _ h; cases h; rfl
  | .longType, a => by intro _ h; cases h; rfl
  | .floatType, a => by intro _ h; cases h; rfl
  | .doubleType, a => by intro _ h; cases h; rfl
  | .decimalType precision scale, a => by intro _ h; cases h; rfl
  | .stringType, a => by intro _ h; cases h; rfl
  | .binaryType, a => by intro _ h; cases h; rfl
  | .dateType, a => by intro _ h; cases h; rfl
  | .timestampType, a => by intro _ h; cases h; rfl
  | .timestampNTZType, a => by
    intro hn _
    simp [noNTZ] at hn
  | .dayTimeIntervalType, a => by intro _ h; cases h; rfl
  | .arrayType e, a => by
    intro hn h
    simp only [toArrowType] at h
    simp only [noNTZ] at hn
    by_cases h1 : e.isTimestampType
    · rw [if_pos h1] at h
      exact Except.noConfusion h
    · rw [if_neg h1] at h
      by_cases h2 : e.isStructType && !pyarrowAtLeast2
      · rw [if_pos h2] at h
        exact Except.noConfusion h
      · rw [if_neg h2] at h
        by_cases h3 : e.structElemNested
        · rw [if_pos h3] at h
          exact Except.noConfusion h
        · rw [if_neg h3] at h
          cases he : toArrowType e with
          | error err => rw [he] at h; exact Except.noConfusion h
          | ok ae =>
            rw [he] at h
            cases h
            simp only [fromArrowType]
            have hts : ae.isTimestamp = false := by
              cases hx : ae.isTimestamp
              · rfl
              · rcases toArrow_timestamp_inv e ae he hx with h' | h'
                · rw [h'] at h1
                  simp [SparkType.isTimestampType] at h1
                · rw [h'] at hn
                  simp [noNTZ] at hn
            rw [if_neg (by simp [hts]), toFrom_noNTZ e ae hn he]
  | .mapType k v, a => by
    intro hn h
    simp only [toArrowType] at h
    simp only [noNTZ, Bool.and_eq_true] at hn
    obtain ⟨hnk, hnv⟩ := hn
    rw [if_neg (by simp [pyarrowAtLeast2])] at h
    by_cases hks : k.isStructType || k.isTimestampType ||
        v.isStructType || v.isTimestampType
    · rw [if_pos hks] at h
      exact Except.noConfusion h
    · rw [if_neg hks] at h
      simp only [Bool.or_eq_true, not_or, Bool.not_eq_true] at hks
      obtain ⟨⟨⟨hks1, hks2⟩, hks3⟩, hks4⟩ := hks
      cases hk : toArrowType k with
      | error err => rw [hk] at h; exact Except.noConfusion h
      | ok ak =>
        cases hv : toArrowType v with
        | error err => rw [hk, hv] at h; exact Except.noConfusion h
        | ok av =>
          rw [hk, hv] at h
          cases h
          simp only [fromArrowType]
          rw [if_neg (by simp [pyarrowAtLeast2])]
          have hkts : ak.isTimestamp = false := by
            cases hx : ak.isTimestamp
            · rfl
            · rcases toArrow_timestamp_inv k ak hk hx with h' | h'
              · rw [h'] at hks2
                simp [SparkType.isTimestampType] at hks2
              · rw [h'] at hnk
                simp [noNTZ] at hnk
          have hvts : av.isTimestamp = false := by
            cases hx : av.isTimestamp
            · rfl
            · rcases toArrow_timestamp_inv v av hv hx with h' | h'
              · rw [h'] at hks4
                simp [SparkType.isTimestampType] at hks4
              · rw [h'] at hnv
                simp [noNTZ] at hnv
          rw [if_neg (by simp [hkts, hvts]), toFrom_noNTZ k ak hnk hk,
            toFrom_noNTZ v av hnv hv]
  | .structType fs, a => by
    intro hn h
    simp only [toArrowType] at h
    simp only [noNTZ] at hn
    by_cases hsf : hasStructField fs
    · rw [if_pos hsf] at h
      exact Except.noConfusion h
    · rw [if_neg hsf] at h
      cases hfs : toArrowFields fs with
      | error err => rw [hfs] at h; exact Except.noConfusion h
      | ok afs =>
        rw [hfs] at h
        cases h
        simp only [fromArrowType]
        have hafs : arrowHasStructField afs = false :=
          arrowFields_no_struct fs afs hfs (by simpa using hsf)
        rw [if_neg (by simp [hafs]), toFromFields_noNTZ fs afs hn hfs]
  | .nullType, a => by intro _ h; cases h; rfl

theorem toFromFields_noNTZ : ∀ (fs : SparkFields) (afs : ArrowFields),
    noNTZFields fs = true → toArrowFields fs = .ok afs →
    fromArrowFields afs = .ok fs
  | .nil, afs => by
    intro _ h
    cases h
    rfl
  | .cons name dt nullable rest, afs => by
    intro hn h
    simp only [toArrowFields] at h
    simp only [noNTZFields, Bool.and_eq_true] at hn
    cases hdt : toArrowType dt with
    | error err => rw [hdt] at h; exact Except.noConfusion h
    | ok a =>
      cases hrest : toArrowFields rest with
      | error err => rw [hdt, hrest] at h; exact Except.noConfusion h
      | ok afs' =>
        rw [hdt, hrest] at h
        cases h
        simp only [fromArrowFields]
        rw [toFrom_noNTZ dt a hn.1 hdt, toFromFields_noNTZ rest afs' hn.2 hrest]

end

theorem fromArrowType_prefer_eq : ∀ (a : ArrowType), a ≠ .timestamp none →
    fromArrowType true a = fromArrowType false a := by
  intro a h
  cases a <;> try rfl
  case timestamp tz =>
    cases tz with
    | none => exact absurd rfl h
    | some s => rfl

/-- C9 counterexample: `ArrayType(TimestampNTZType())` is accepted by
`to_arrow_type` (producing a list of timezone-less timestamps), but
`from_arrow_type` rejects every list whose value type is a timestamp with
`UNSUPPORTED_DATA_TYPE_FOR_ARROW_CONVERSION` instead of returning the original
type — so `from_arrow_type(to_arrow_type(t), prefer_timestamp_ntz=True)` is
not `t` for every accepted `t`. -/
theorem arrow_type_roundtrip_cex :
    toArrowType (.arrayType .timestampNTZType) = .ok (.list (.timestamp none)) ∧
    fromArrowType true (.list (.timestamp none)) =
      .error "UNSUPPORTED_DATA_TYPE_FOR_ARROW_CONVERSION" :=
  ⟨rfl, rfl⟩

/-- C9 (amended): for every engine type `t` accepted by `to_arrow_type` in
which `TimestampNTZType` occurs at most as the whole type (never nested:
recursive `from_arrow_type` calls use the default `prefer_timestamp_ntz=False`,
and a timestamp directly under a list or map is rejected on the way back),
`from_arrow_type(to_arrow_type(t), prefer_timestamp_ntz=True)` returns exactly
`t`; moreover a dictionary-encoded type maps to the engine type of its value
type and the null type maps to `NullType` without error. -/
theorem arrow_type_roundtrip (t : SparkType) (a : ArrowType)
    (hclean : cleanTop t = true) (h : toArrowType t = .ok a) :
    fromArrowType true a = .ok t ∧
    (∀ v : ArrowType, fromArrowType true (.dictionary v) = fromArrowType false v) ∧
    fromArrowType true .null = .ok .nullType := by
  refine ⟨?_, fun v => rfl, rfl⟩
  by_cases hntz : t = .timestampNTZType
  · subst hntz
    cases h
    rfl
  · have hn : noNTZ t = true := by
      cases t
      case timestampNTZType => exact absurd rfl hntz
      all_goals simpa [cleanTop] using hclean
    have hno : a ≠ .timestamp none := by
      intro hc
      subst hc
      exact hntz (toArrow_timestamp_none_inv t h)
    rw [fromArrowType_prefer_eq a hno]
    exact toFrom_noNTZ t a hn h

/-- C9 witness: the amended round trip at `ArrayType(IntegerType())`. -/
theorem arrow_type_roundtrip_witness :
    cleanTop (.arrayType .integerType) = true ∧
    toArrowType (.arrayType .integerType) = .ok (.list .int32) ∧
    fromArrowType true (.list .int32) = .ok (.arrayType .integerType) :=
  ⟨rfl, rfl,
    (arrow_type_roundtrip (.arrayType .integerType) (.list .int32) rfl rfl).1⟩

/-- One `ExecutePlanResponse` unit: its `response_id` and the
`response_complete` final marker. -/
structure Response where
  responseId : Nat
  responseComplete : Bool
  deriving DecidableEq, Repr

/-- One event of a server-stream iterator: a response unit, or a retryable
transport error raised by `next()` on the iterator. -/
inductive StreamItem where
  | item (r : Response)
  | err
  deriving DecidableEq, Repr

/-- A release notification dispatched by `_release_execute`:
`releaseUntil id` for a release up to and including `response_id`,
`releaseAll` for `release_all`. -/
inductive ReleaseNotification where
  | releaseUntil (id : Nat)
  | releaseAll
  deriving DecidableEq, Repr

/-- The client-side state of `ExecutePlanResponseReattachableIterator`
(`_last_returned_response_id`, `_result_complete`, `_current`, `_iterator`)
together with the transport script: `queue` lists the iterators that successive
`ReattachExecute` calls will return.  Modelled from the spec: the transport
stub is an external collaborator, so its reattach responses are scripted. -/
structure IterState where
  lastReturnedResponseId : Option Nat
  resultComplete : Bool
  current : Option Response
  iterator : List StreamItem
  queue : List (List StreamItem)
  deriving DecidableEq, Repr

/-- The state right after `__init__`: fresh cursor, not complete, no current
item, the `ExecutePlan` response iterator installed. -/
def initialState (it : List StreamItem) (q : List (List StreamItem)) : IterState :=
  { lastReturnedResponseId := none, resultComplete := false, current := none,
    iterator := it, queue := q }

/-- `next(self._iterator)`: the next item of the current iterator, `none` on
`StopIteration` (graceful stream end), `.error` when the transport raises a
retryable error. -/
def pull : List StreamItem → Except Unit (Option Response × List StreamItem)
  | [] => .ok (none, [])
  | .item r :: rest => .ok (some r, rest)
  | .err :: _ => .error ()

/-- The retry / graceful-reattach loop inside `_has_next`, collapsed: both a
retryable error (caught by the `Retrying` attempt, whose next attempt installs
`self._stub.ReattachExecute(...)` as the new iterator) and a graceful end
without a unit (the `while not has_next or first_loop` loop, which likewise
installs a fresh `ReattachExecute` iterator) take the next scripted iterator
from the queue and pull from it.  Returns the produced response, the remaining
iterator and queue, and the number of `ReattachExecute` calls issued; `none`
when the script is exhausted (subsuming an exhausted retry budget, which the
claims' scenarios never reach).  Modelled from the spec: `Retrying`
(`pyspark/sql/connect/client/core.py` is not among the sources) retries
retryable errors under the injected policy, each retry re-issuing a reattach
request; release notifications are never dispatched here. -/
def hasNextLoop :
    List (List StreamItem) → Option (Response × List StreamItem × List (List StreamItem) × Nat)
  | [] => none
  | it :: q =>
    match pull it with
    | .error _ => (hasNextLoop q).map (fun r => (r.1, r.2.1, r.2.2.1, r.2.2.2 + 1))
    | .ok (some r, it') => some (r, it', q, 1)
    | .ok (none, _) => (hasNextLoop q).map (fun r => (r.1, r.2.1, r.2.2.1, r.2.2.2 + 1))

/-- `_has_next()`: returns false immediately when `_result_complete`;
otherwise the first try pulls from the existing iterator (`first_try`), and a
retryable error or a graceful end without a unit falls into the reattach loop.
Returns the has-next answer, the updated state and the number of reattach
requests issued; `none` when the reattach script is exhausted. -/
def hasNext (st : IterState) : Option (Bool × IterState × Nat) :=
  if st.resultComplete then some (false, st, 0)
  else
    match st.current with
    | some _ => some (true, st, 0)
    | none =>
      match pull st.iterator with
      | .ok (some r, it') =>
        some (true, { st with current := some r, iterator := it' }, 0)
      | .ok (none, _) =>
        match hasNextLoop st.queue with
        | none => none
        | some (r, itF, qF, n) =>
          some (true, { st with current := some r, iterator := itF, queue := qF }, n)
      | .error _ =>
        match hasNextLoop st.queue with
        | none => none
        | some (r, itF, qF, n) =>
          some (true, { st with current := some r, iterator := itF, queue := qF }, n)

/-- The result of one `send(None)` (`next()`) call: a yielded response with
the new state, the release notifications dispatched during the call and the
number of reattach requests issued; or `StopIteration` with the (unchanged)
state; or a stuck transport script. -/
inductive SendResult where
  | yielded (r : Response) (st : IterState) (notes : List ReleaseNotification)
      (reattaches : Nat)
  | stopIteration (st : IterState)
  | stuck
  deriving DecidableEq, Repr

/-- `send(value)`: raise `StopIteration` when `_has_next()` is false; otherwise
yield `_current`, record its `response_id` as the cursor, and dispatch exactly
one release notification — release-all (also setting `_result_complete`) for a
final unit, release-up-to-`response_id` otherwise. -/
def send (st : IterState) : SendResult :=
  match hasNext st with
  | none => .stuck
  | some (false, st', _) => .stopIteration st'
  | some (true, st', n) =>
    match st'.current with
    | none => .stuck
    | some ret =>
      .yielded ret
        { st' with
          lastReturnedResponseId := some ret.responseId
          resultComplete := ret.responseComplete
          current := none }
        [if ret.responseComplete then .releaseAll else .releaseUntil ret.responseId]
        n

/-- Drive `next()` `n` times, collecting the yielded responses and the release
notifications in dispatch order and summing the reattach requests; stops early
at `StopIteration` or a stuck script. -/
def drive : Nat → IterState → List Response × List ReleaseNotification × Nat
  | 0, _ => ([], [], 0)
  | n + 1, st =>
    match send st with
    | .yielded r st' notes k =>
      let rest := drive n st'
      (r :: rest.1, notes ++ rest.2.1, k + rest.2.2)
    | .stopIteration _ => ([], [], 0)
    | .stuck => ([], [], 0)

/-- C1: every yielded unit dispatches exactly one release notification —
release-all for the final unit, release-up-to-`response_id` otherwise — and
advances the cursor; and in the concrete resumption scenario (transport yields
ids 1, 2, then a retryable error, and the reattach yields 3 and final 4), four
`next()` calls yield 1, 2, 3, 4 in server order with release-until
notifications after 1, 2, 3, exactly one release-all after 4, and exactly one
reattach request, which dispatches no notification of its own. -/
theorem reattach_release_policy :
    (∀ (st : IterState) (r : Response) (st' : IterState)
        (notes : List ReleaseNotification) (k : Nat),
      send st = .yielded r st' notes k →
      notes = [if r.responseComplete then .releaseAll
               else .releaseUntil r.responseId] ∧
      st'.lastReturnedResponseId = some r.responseId ∧
      st'.resultComplete = r.responseComplete) ∧
    drive 4 (initialState [.item ⟨1, false⟩, .item ⟨2, false⟩, .err]
        [[.item ⟨3, false⟩, .item ⟨4, true⟩]]) =
      ([⟨1, false⟩, ⟨2, false⟩, ⟨3, false⟩, ⟨4, true⟩],
       [.releaseUntil 1, .releaseUntil 2, .releaseUntil 3, .releaseAll], 1) := by
  constructor
  · intro st r st' notes k h
    rw [send] at h
    split at h
    · exact SendResult.noConfusion h
    · exact SendResult.noConfusion h
    · split at h
      · exact SendResult.noConfusion h
      · cases h
        exact ⟨rfl, rfl, rfl⟩
  · rfl

/-- C1 witness: the release policy at the first `next()` of the scenario. -/
theorem reattach_release_policy_witness :
    send (initialState [.item ⟨1, false⟩, .item ⟨2, false⟩, .err]
        [[.item ⟨3, false⟩, .item ⟨4, true⟩]]) =
      .yielded ⟨1, false⟩
        { lastReturnedResponseId := some 1
          resultComplete := false
          current := none
          iterator := [.item ⟨2, false⟩, .err]
          queue := [[.item ⟨3, false⟩, .item ⟨4, true⟩]] }
        [.releaseUntil 1] 0 ∧
    ([ReleaseNotification.releaseUntil 1] =
      [if (⟨1, false⟩ : Response).responseComplete then .releaseAll
       else .releaseUntil (⟨1, false⟩ : Response).responseId]) :=
  ⟨rfl, (reattach_release_policy.1
      (initialState [.item ⟨1, false⟩, .item ⟨2, false⟩, .err]
        [[.item ⟨3, false⟩, .item ⟨4, true⟩]])
      ⟨1, false⟩
      { lastReturnedResponseId := some 1
        resultComplete := false
        current := none
        iterator := [.item ⟨2, false⟩, .err]
        queue := [[.item ⟨3, false⟩, .item ⟨4, true⟩]] }
      [.releaseUntil 1] 0 rfl).1⟩

theorem hasNextLoop_replicate :
    ∀ (n : Nat) (it : List StreamItem) (q : List (List StreamItem))
      (r : Response) (it' : List StreamItem),
      pull it = .ok (some r, it') →
      hasNextLoop (List.replicate n [] ++ it :: q) = some (r, it', q, n + 1)
  | 0, it, q, r, it' => by
    intro h
    rw [List.replicate_zero, List.nil_append, hasNextLoop, h]
  | n + 1, it, q, r, it' => by
    intro h
    rw [List.replicate_succ, List.cons_append, hasNextLoop]
    have hp : pull [] = .ok (none, []) := rfl
    rw [hp, hasNextLoop_replicate n it q r it' h]
    rfl

/-- C2: when the current response iterator has ended gracefully without a
final marker, one `next()` call reattaches through any number `n` of
consecutive empty reattach iterators until a unit is produced (issuing `n + 1`
reattach requests) and yields that unit; and once the final unit has been
returned (`_result_complete`), every subsequent `next()` raises
`StopIteration` with the state untouched — no pull and no reattach happens. -/
theorem graceful_reattach_loop :
    (∀ (st : IterState) (n : Nat) (it : List StreamItem)
        (q : List (List StreamItem)) (r : Response) (it' : List StreamItem),
      st.resultComplete = false → st.current = none → st.iterator = [] →
      st.queue = List.replicate n [] ++ it :: q →
      pull it = .ok (some r, it') →
      send st = .yielded r
        { st with
          lastReturnedResponseId := some r.responseId
          resultComplete := r.responseComplete
          current := none
          iterator := it'
          queue := q }
        [if r.responseComplete then .releaseAll else .releaseUntil r.responseId]
        (n + 1)) ∧
    (∀ st : IterState, st.resultComplete = true → send st = .stopIteration st) := by
  constructor
  · intro st n it q r it' hrc hcur hit hq hpull
    rw [send, hasNext, if_neg (by rw [hrc]; simp), hcur, hit]
    have hp : pull [] = .ok ((none : Option Response), ([] : List StreamItem)) := rfl
    rw [hp, hq, hasNextLoop_replicate n it q r it' hpull]
  · intro st h
    rw [send, hasNext, if_pos h]

/-- C2 witness: an empty initial iterator followed by two empty reattach
iterators and then a final unit: one `next()` yields the final unit with three
reattaches; the next `next()` raises `StopIteration`. -/
theorem graceful_reattach_loop_witness :
    (send (initialState [] [[], [], [.item ⟨5, true⟩]]) =
      .yielded ⟨5, true⟩
        { lastReturnedResponseId := some 5
          resultComplete := true
          current := none
          iterator := []
          queue := [] }
        [.releaseAll] 3) ∧
    send
        { lastReturnedResponseId := some 5
          resultComplete := true
          current := none
          iterator := []
          queue := [] } =
      .stopIteration
        { lastReturnedResponseId := some 5
          resultComplete := true
          current := none
          iterator := []
          queue := [] } :=
  ⟨graceful_reattach_loop.1 (initialState [] [[], [], [.item ⟨5, true⟩]])
      2 [.item ⟨5, true⟩] [] ⟨5, true⟩ [] rfl rfl rfl rfl rfl,
    graceful_reattach_loop.2 _ rfl⟩

end PySparkSer
